import Mathlib

/-!
Verification development for the streaming LLM call orchestrator of the
CommonGround repository (`core/agent_core/llm/call_llm.py`).

The Python source is shallowly embedded as pure Lean functions:
  * `CG.estimate_prompt_tokens` embeds `estimate_prompt_tokens`; the external
    `litellm.token_counter` call is a function parameter, and its surrounding
    try/except (return of the count, 0 on failure) is embedded directly.
  * `CG.processChunk` / `CG.aggregateChunks` / `CG.getAggregatedResponse`
    embed `LLMResponseAggregator.process_chunk` and
    `LLMResponseAggregator.get_aggregated_response`.  The Python dict
    `current_tool_call_chunks` (insertion-ordered, keyed by tool-call index)
    is embedded as an association list preserving first-insertion order.
    The external `json_repair.repair_json` call is a function parameter of
    type `String → Option String` (`none` models the library raising, in
    which case the original argument string is retained, as in the source).
  * `CG.attemptLoop` / `CG.call_litellm_acompletion` embed the retry loop of
    `call_litellm_acompletion`.  The transport (`litellm.acompletion` and
    the asynchronous stream it returns) is a parameter mapping each attempt
    number to its observable behaviour: either raising a litellm exception
    or yielding a list of chunks.  Event-sink emissions, logging, stream-id
    generation (`uuid`) and the backoff sleep have no effect on any value
    the claims mention and are not modelled; the run-scoped statistics
    object (`run_context['runtime']['token_usage_stats']`) is threaded
    explicitly, modelling the case where `run_context` is supplied.
Raised Python exceptions that escape the orchestrator are explicit
constructors of `CG.CallResult`; returned error dicts are `.errorResult`.
-/

namespace CG

/-- A chat message: the embedding of the role/content dicts of
`messages` / `final_messages`. -/
structure Message where
  role : String
  content : String
deriving Repr, DecidableEq

/-- A usage snapshot, embedding the fields of the usage dict that the
source reads (`usage.get("prompt_tokens", 0)`, `usage.get("completion_tokens", 0)`). -/
structure Usage where
  prompt_tokens : Nat
  completion_tokens : Nat
deriving Repr, DecidableEq

/-- One streamed tool-call delta (`tc_chunk`): its index (`tc_chunk.index`,
0 when absent, per the source default) and the optional id / function-name /
function-arguments fragments.  `none` models an absent attribute or `None`. -/
structure ToolCallDelta where
  index : Nat
  id : Option String
  name : Option String
  arguments : Option String
deriving Repr, DecidableEq

/-- The delta payload of a chunk (`chunk.choices[0].delta`). -/
structure Delta where
  reasoning_content : Option String
  content : Option String
  tool_calls : List ToolCallDelta
deriving Repr, DecidableEq

/-- One streamed fragment (`chunk`).  `choices = []` embeds a chunk with no
`choices` attribute or an empty choices list; otherwise the head holds the
delta, as the source only reads `chunk.choices[0]`. -/
structure Chunk where
  usage : Option Usage
  model : Option String
  choices : List Delta
deriving Repr, DecidableEq

/-- In-progress tool-call record: the value stored in
`current_tool_call_chunks[index]` (the constant `"type": "function"` field
is omitted as nothing reads it). -/
structure ToolCallRec where
  id : Option String
  name : String
  arguments : String
deriving Repr, DecidableEq

/-- Aggregator state: the mutable fields of `LLMResponseAggregator` that
affect its result.  `tool_chunks` is the insertion-ordered association list
embedding the Python dict `current_tool_call_chunks`. -/
structure AggState where
  full_content : String
  full_reasoning_content : String
  tool_chunks : List (Nat × ToolCallRec)
  model_id_used : Option String
  actual_usage : Option Usage
deriving Repr, DecidableEq

/-- The aggregator's initial state (constructor of `LLMResponseAggregator`). -/
def initAggState : AggState :=
  { full_content := ""
    full_reasoning_content := ""
    tool_chunks := []
    model_id_used := none
    actual_usage := none }

/-- Python truthiness of an optional string: `None` and `""` are falsy. -/
def optTruthy (o : Option String) : Bool := o.getD "" ≠ ""

/-- The in-band tool-invocation marker test of `process_chunk`:
`"<tool_call>" in self.full_content or "<tool_code>" in self.full_content`. -/
def hasToolMarker (s : String) : Bool :=
  decide ("<tool_call>".data <:+: s.data) || decide ("<tool_code>".data <:+: s.data)

/-- Message of the `FunctionCallErrorException` raised on marker detection. -/
def markerMsg : String :=
  "Detected \x27<tool_call>\x27 or \x27<tool_code>\x27 in stream, forcing retry."

/-- Whether an index is already a key of the tool-call map
(`index not in self.current_tool_call_chunks` negated). -/
def hasIndex (m : List (Nat × ToolCallRec)) (i : Nat) : Bool :=
  m.any (fun p => p.1 == i)

/-- Field updates applied to the record at the delta's index: adopt a truthy
id, concatenate truthy name and arguments fragments. -/
def applyDelta (r : ToolCallRec) (d : ToolCallDelta) : ToolCallRec :=
  let r1 := if optTruthy d.id then { r with id := d.id } else r
  let r2 := if optTruthy d.name then { r1 with name := r1.name ++ d.name.getD "" } else r1
  if optTruthy d.arguments then { r2 with arguments := r2.arguments ++ d.arguments.getD "" } else r2

/-- Processing of one tool-call delta: create a fresh record on first sight
of the index (appended, preserving first-seen order as the Python dict
does), then apply the field updates at that index. -/
def processToolDelta (m : List (Nat × ToolCallRec)) (d : ToolCallDelta) :
    List (Nat × ToolCallRec) :=
  let m1 := if hasIndex m d.index then m
            else m ++ [(d.index, ⟨none, "", ""⟩)]
  m1.map (fun p => if p.1 = d.index then (p.1, applyDelta p.2 d) else p)

/-- The tool-call loop at the end of `process_chunk`. -/
def processToolCalls (st : AggState) (l : List ToolCallDelta) : AggState :=
  { st with tool_chunks := l.foldl processToolDelta st.tool_chunks }

/-- Usage-snapshot capture at the top of `process_chunk` (last snapshot
wins across a stream). -/
def captureUsage (st : AggState) (u : Option Usage) : AggState :=
  match u with
  | some u0 => { st with actual_usage := some u0 }
  | none => st

/-- Model-id capture of `process_chunk` (runs only on chunks that got past
the no-choices guard): `if not self.model_id_used and ... and chunk.model`. -/
def captureModel (st : AggState) (mo : Option String) : AggState :=
  if !(optTruthy st.model_id_used) && optTruthy mo then
    { st with model_id_used := mo }
  else st

/-- Reasoning-content accumulation of `process_chunk`. -/
def appendReasoning (st : AggState) (rc : Option String) : AggState :=
  match rc with
  | some r => { st with full_reasoning_content := st.full_reasoning_content ++ r }
  | none => st

/-- Embedding of `LLMResponseAggregator.process_chunk`.  `Except.error`
embeds raising `FunctionCallErrorException` (the only exception the method
raises); event emission is effect-free on the state and omitted. -/
def processChunk (st : AggState) (chunk : Chunk) : Except String AggState :=
  let st1 := captureUsage st chunk.usage
  match chunk.choices with
  | [] => .ok st1
  | delta :: _ =>
    let st2 := captureModel st1 chunk.model
    let st3 := appendReasoning st2 delta.reasoning_content
    match delta.content with
    | some c =>
      let st4 := { st3 with full_content := st3.full_content ++ c }
      if hasToolMarker st4.full_content then .error markerMsg
      else .ok (processToolCalls st4 delta.tool_calls)
    | none => .ok (processToolCalls st3 delta.tool_calls)

/-- The `async for chunk in llm_response_stream: await process_chunk(chunk)`
loop: chunks are consumed in order, stopping at the first raised
`FunctionCallErrorException`. -/
def aggregateChunks (st : AggState) : List Chunk → Except String AggState
  | [] => .ok st
  | c :: cs =>
    match processChunk st c with
    | .error e => .error e
    | .ok st' => aggregateChunks st' cs

/-- A completed tool call as it appears in the finalized response list. -/
structure OutToolCall where
  id : Option String
  name : String
  arguments : String
deriving Repr, DecidableEq

/-- The finalized response dict of `get_aggregated_response`
(`final_stream_id` is attached later by the orchestrator). -/
structure AggregatedResponse where
  reasoning : String
  content : String
  tool_calls : List OutToolCall
  model_id_used : Option String
  actual_usage : Option Usage
deriving Repr, DecidableEq

/-- One output tool call: the stored record with its arguments passed
through `json_repair.repair_json` (`repair`); `none` embeds the repair
raising, in which case the original string is kept. -/
def outOf (repair : String → Option String) (r : ToolCallRec) : OutToolCall :=
  { id := r.id, name := r.name, arguments := (repair r.arguments).getD r.arguments }

/-- Embedding of `LLMResponseAggregator.get_aggregated_response`: the
tool-call list is `list(self.current_tool_call_chunks.values())` — the
records in insertion order — with repaired arguments. -/
def getAggregatedResponse (repair : String → Option String) (st : AggState) :
    AggregatedResponse :=
  { reasoning := st.full_reasoning_content
    content := st.full_content
    tool_calls := st.tool_chunks.map (fun p => outOf repair p.2)
    model_id_used := st.model_id_used
    actual_usage := st.actual_usage }

/-- The content delta a chunk contributes to the cumulative buffer:
empty when the chunk has no choices or its delta carries no content. -/
def chunkContent (c : Chunk) : String :=
  match c.choices with
  | [] => ""
  | d :: _ => d.content.getD ""

/-- The full content text of a stream: concatenation of all content deltas. -/
def streamContent (cs : List Chunk) : String :=
  cs.foldl (fun a c => a ++ chunkContent c) ""

/-- Message of the `ValueError` raised when both `text` and `messages` are
supplied to `estimate_prompt_tokens`. -/
def bothSuppliedMsg : String :=
  "Provide either \x27text\x27 or \x27messages\x27 to estimate_prompt_tokens, not both."

/-- Embedding of `estimate_prompt_tokens`.  The external
`litellm.token_counter` is the parameter `counter`; its surrounding
try/except (count on success, 0 on any failure) is embedded directly.
The `llm_config_for_tokenizer` dict is embedded by the value of its
`litellm_token_counter_model` key (`tokenCounterModel`), whose truthiness is
what the source tests.  `Except.error` embeds raising `ValueError`. -/
def estimate_prompt_tokens (counter : String → List Message → Except String Nat)
    (model : String) (text : Option String) (messages : Option (List Message))
    (system_prompt : Option String) (tokenCounterModel : Option String) :
    Except String Nat :=
  let mfc := if optTruthy tokenCounterModel then tokenCounterModel.getD "" else model
  if !(optTruthy tokenCounterModel) && model == "" then .ok 0
  else if text.isSome && messages.isSome then .error bothSuppliedMsg
  else
    let base : List Message := match system_prompt with
      | some sp => if sp ≠ "" then [⟨"system", sp⟩] else []
      | none => []
    let msgs : List Message := match text, messages with
      | some t, _ => base ++ [⟨"user", t⟩]
      | none, some ms => base ++ ms
      | none, none => base
    if msgs.isEmpty then .ok 0
    else match counter mfc msgs with
      | .ok n => .ok n
      | .error _ => .ok 0

/-! ## Orchestrator (`call_litellm_acompletion`) -/

/-- The litellm exception classes the orchestrator distinguishes, plus the
application-level `FunctionCallErrorException` and a catch-all for anything
hitting the final generic handler (carrying the Python type name). -/
inductive ErrKind where
  | rateLimit | timeout | apiConnection | serviceUnavailable
  | internalServer | apiErr
  | authentication | badRequest | contextWindowExceeded
  | functionCallError
  | other (tyName : String)
deriving Repr, DecidableEq

/-- The Python class name of an error kind (`type(e).__name__`). -/
def pyName : ErrKind → String
  | .rateLimit => "RateLimitError"
  | .timeout => "Timeout"
  | .apiConnection => "APIConnectionError"
  | .serviceUnavailable => "ServiceUnavailableError"
  | .internalServer => "InternalServerError"
  | .apiErr => "APIError"
  | .authentication => "AuthenticationError"
  | .badRequest => "BadRequestError"
  | .contextWindowExceeded => "ContextWindowExceededError"
  | .functionCallError => "FunctionCallErrorException"
  | .other tyName => tyName

/-- An exception instance: its class and its `str(e)` text. -/
structure LLMErr where
  kind : ErrKind
  detail : String
deriving Repr, DecidableEq

/-- Membership in the first (retryable) except-tuple: the network-class
litellm errors.  `FunctionCallErrorException` is also in that tuple but is
raised only inside the attempt body, never by the transport. -/
def isNetworkRetryable : ErrKind → Bool
  | .rateLimit | .timeout | .apiConnection | .serviceUnavailable
  | .internalServer | .apiErr => true
  | _ => false

/-- Membership in the unrecoverable except-tuple. -/
def isUnrecoverable : ErrKind → Bool
  | .authentication | .badRequest | .contextWindowExceeded => true
  | _ => false

/-- The observable behaviour of the transport for one attempt: either an
exception raised by `litellm.acompletion` / while iterating the stream, or
the full list of chunks the stream yields. -/
inductive AttemptBehavior where
  | raises (e : LLMErr)
  | yields (chunks : List Chunk)

/-- Run-scoped token-usage statistics
(`run_context['runtime']['token_usage_stats']`). -/
structure Stats where
  total_prompt_tokens : Nat
  total_completion_tokens : Nat
  total_successful_calls : Nat
  total_failed_calls : Nat
  max_context_window : Nat
deriving Repr, DecidableEq

/-- The failure-counting block of the retryable-exception handler. -/
def incFailed (s : Stats) : Stats :=
  { s with total_failed_calls := s.total_failed_calls + 1 }

/-- The success-path statistics update: applied only when the aggregated
response carries a usage snapshot. -/
def applyUsage (stats : Stats) : Option Usage → Stats
  | none => stats
  | some u =>
    let s := { stats with
      total_prompt_tokens := stats.total_prompt_tokens + u.prompt_tokens
      total_completion_tokens := stats.total_completion_tokens + u.completion_tokens
      total_successful_calls := stats.total_successful_calls + 1 }
    let tot := u.prompt_tokens + u.completion_tokens
    if tot > s.max_context_window then { s with max_context_window := tot } else s

/-- The outcome of `call_litellm_acompletion`: a returned aggregated
response, a returned error dict, or an exception escaping the function
(`RuntimeError` after the loop; `IndexError` from `messages[-1]` on an
empty original message list during the attempt-0 corrective mutation). -/
inductive CallResult where
  | success (resp : AggregatedResponse)
  | errorResult (error_type : String) (message : String)
  | raisedRuntimeError
  | raisedIndexError
deriving Repr, DecidableEq

/-- The result triple the embedding exposes: the Python return value (or
escaping exception), the statistics object after the call, and the list of
message lists sent to the transport by the successive attempts, in order.
(`attempts` is pure observability instrumentation; Python's loop has no
such value, but each of its iterations performs exactly one transport
dispatch with the current `final_messages`.) -/
structure CallOutcome where
  result : CallResult
  stats : Stats
  attempts : List (List Message)
deriving Repr, DecidableEq

/-- The error message of the post-loop exhausted-retries return. -/
def exhaustedMessage (e : LLMErr) : String :=
  "LLM call failed after all retries. Last error: " ++ pyName e.kind ++ " - " ++ e.detail

/-- `str(e)` of the `ValueError` raised when `llm_config` lacks a model. -/
def missingModelMsg : String :=
  "The \x27model\x27 key is missing in the provided llm_config."

/-- `raise FunctionCallErrorException` message of the empty-response check. -/
def emptyResponseMsg : String :=
  "Received completely empty response from LLM, forcing retry."

/-- The user turn appended (after an empty assistant turn) when attempt 0
fails at the application level; `lastContent` is
`messages[-1].get("content", "")` of the ORIGINAL message list. -/
def emptyRetryPrompt (lastContent : String) : String :=
  "You just made an empty response, which is not acceptable. Let\x27s try again. DO NOT apologize, just continue from where you left off and proceed with my request. My request is: " ++ lastContent

/-- The user turn appended when attempt 1 fails at the application level. -/
def insistPrompt : String :=
  "You must ensure that you make a tool call or just say sth, regardless of the situation. Not making any reponse is not an option. If you are unsure, please ask the user for more information or clarification. "

/-- The assistant turn appended when attempt ≥ 2 fails at the application
level. -/
def concludePrompt : String :=
  "It appears that I am unable to make further progress. For this final attempt, I will just say sth, or call a tool to conclude this flow. [To Principal: If you see this message, please review my reasoning and content to assess my progress. If there has been no meaningful advancement, consider restarting this workflow with revised requirements.]"

/-- The corrective message mutation for application-level retryable
failures, by the 0-based index of the failed attempt.  `none` embeds the
`IndexError` Python raises evaluating `messages[-1]` on an empty original
message list. -/
def mutateMessages (attempt : Nat) (origMessages msgs : List Message) :
    Option (List Message) :=
  if attempt = 0 then
    match origMessages.getLast? with
    | none => none
    | some lastMsg =>
      some (msgs ++ [⟨"assistant", ""⟩, ⟨"user", emptyRetryPrompt lastMsg.content⟩])
  else if attempt = 1 then some (msgs ++ [⟨"user", insistPrompt⟩])
  else some (msgs ++ [⟨"assistant", concludePrompt⟩])

/-- ASCII whitespace stripped by Python `str.strip()` (the claims only
exercise ASCII content). -/
def pyIsSpace (c : Char) : Bool :=
  c == ' ' || c == '\t' || c == '\n' || c == '\r' || c == '\x0b' || c == '\x0c'

/-- `not s.strip()`: the string is empty or entirely whitespace. -/
def strippedEmpty (s : String) : Bool := s.data.all pyIsSpace

/-- The empty-response test applied to the finalized response:
`not content.strip() and not tool_calls`. -/
def emptyFailureB (resp : AggregatedResponse) : Bool :=
  strippedEmpty resp.content && resp.tool_calls.isEmpty

/-- The retry loop of `call_litellm_acompletion`, one recursive step per
`for attempt in range(app_level_max_retries + 1)` iteration.  `remaining`
counts the loop iterations still available including the current one
(initially `max_retries + 1`), so `remaining = 1` is the final attempt and
the `attempt >= app_level_max_retries` exhaustion break corresponds to the
inner `remaining` reaching 0.  The `attempts` component of the outcome
collects the message list each attempt sent to the transport, in order. -/
def attemptLoop (repair : String → Option String) (beh : Nat → AttemptBehavior)
    (model : Option String) (origMessages : List Message) :
    Nat → List Message → Stats → Nat → Option LLMErr → CallOutcome
  | 0, _msgs, stats, _attempt, lastErr =>
    match lastErr with
    | some e => ⟨.errorResult (pyName e.kind) (exhaustedMessage e), stats, []⟩
    | none => ⟨.raisedRuntimeError, stats, []⟩
  | remaining + 1, msgs, stats, attempt, _lastErr =>
    if !(optTruthy model) then
      ⟨.errorResult "ValueError" ("Unexpected error: " ++ missingModelMsg), stats, []⟩
    else
      match beh attempt with
      | .raises e =>
        if isNetworkRetryable e.kind then
          let stats' := incFailed stats
          if remaining = 0 then
            ⟨.errorResult (pyName e.kind) (exhaustedMessage e), stats', [msgs]⟩
          else
            let o := attemptLoop repair beh model origMessages remaining msgs stats'
              (attempt + 1) (some e)
            ⟨o.result, o.stats, msgs :: o.attempts⟩
        else if isUnrecoverable e.kind then
          ⟨.errorResult (pyName e.kind) (pyName e.kind ++ ": " ++ e.detail), stats, [msgs]⟩
        else
          ⟨.errorResult (pyName e.kind) ("Unexpected error: " ++ e.detail), stats, [msgs]⟩
      | .yields chunks =>
        match aggregateChunks initAggState chunks with
        | .error emsg =>
          let stats' := incFailed stats
          let e : LLMErr := ⟨.functionCallError, emsg⟩
          if remaining = 0 then
            ⟨.errorResult (pyName e.kind) (exhaustedMessage e), stats', [msgs]⟩
          else
            match mutateMessages attempt origMessages msgs with
            | none => ⟨.raisedIndexError, stats', [msgs]⟩
            | some msgs' =>
              let o := attemptLoop repair beh model origMessages remaining msgs' stats'
                (attempt + 1) (some e)
              ⟨o.result, o.stats, msgs :: o.attempts⟩
        | .ok st =>
          let resp := getAggregatedResponse repair st
          if emptyFailureB resp then
            let stats' := incFailed stats
            let e : LLMErr := ⟨.functionCallError, emptyResponseMsg⟩
            if remaining = 0 then
              ⟨.errorResult (pyName e.kind) (exhaustedMessage e), stats', [msgs]⟩
            else
              match mutateMessages attempt origMessages msgs with
              | none => ⟨.raisedIndexError, stats', [msgs]⟩
              | some msgs' =>
                let o := attemptLoop repair beh model origMessages remaining msgs' stats'
                  (attempt + 1) (some e)
                ⟨o.result, o.stats, msgs :: o.attempts⟩
          else
            ⟨.success resp, applyUsage stats st.actual_usage, [msgs]⟩

/-- `final_messages` preparation: a copy of `messages`, with the leading
system message's content replaced (or a system message prepended) when a
truthy `system_prompt_content` is given. -/
def mkFinalMessages (messages : List Message) (systemPrompt : Option String) :
    List Message :=
  match systemPrompt with
  | none => messages
  | some sp =>
    if sp = "" then messages
    else match messages with
      | m :: rest => if m.role = "system" then ⟨m.role, sp⟩ :: rest
                     else ⟨"system", sp⟩ :: m :: rest
      | [] => [⟨"system", sp⟩]

/-- Embedding of `call_litellm_acompletion`: prepares `final_messages` and
runs the unified retry loop over attempts `0 .. maxRetries` (the source's
`app_level_max_retries = llm_config.get("max_retries", 2)`). -/
def call_litellm_acompletion (repair : String → Option String)
    (beh : Nat → AttemptBehavior) (messages : List Message)
    (model : Option String) (maxRetries : Nat) (systemPrompt : Option String)
    (stats : Stats) : CallOutcome :=
  attemptLoop repair beh model messages (maxRetries + 1)
    (mkFinalMessages messages systemPrompt) stats 0 none

/-! ## Aggregator lemmas -/

/-- The ordered list of tool-call indices currently tracked. -/
def toolIndices (st : AggState) : List Nat := st.tool_chunks.map Prod.fst

theorem processToolDelta_keys (m : List (Nat × ToolCallRec)) (d : ToolCallDelta) :
    (processToolDelta m d).map Prod.fst =
      if hasIndex m d.index then m.map Prod.fst
      else m.map Prod.fst ++ [d.index] := by
  unfold processToolDelta
  split
  · rw [List.map_map]
    apply List.map_congr_left
    intro p _
    by_cases h : p.1 = d.index <;> simp [h]
  · rw [List.map_map, List.map_append]
    congr 1
    · apply List.map_congr_left
      intro p _
      by_cases h : p.1 = d.index <;> simp [h]
    · simp

theorem processToolDelta_keys_mono (m : List (Nat × ToolCallRec)) (d : ToolCallDelta) :
    ∃ ext, (processToolDelta m d).map Prod.fst = m.map Prod.fst ++ ext := by
  rw [processToolDelta_keys]
  split
  · exact ⟨[], by simp⟩
  · exact ⟨[d.index], rfl⟩

theorem processToolDelta_keys_nodup (m : List (Nat × ToolCallRec)) (d : ToolCallDelta)
    (h : (m.map Prod.fst).Nodup) : ((processToolDelta m d).map Prod.fst).Nodup := by
  rw [processToolDelta_keys]
  split
  · exact h
  · next hni =>
    have hmem : d.index ∉ m.map Prod.fst := by
      intro hmem
      apply hni
      obtain ⟨p, hp, hfst⟩ := List.mem_map.1 hmem
      simp only [hasIndex, List.any_eq_true]
      exact ⟨p, hp, by simp [hfst]⟩
    simp [List.nodup_append, h, hmem]

theorem foldl_toolDelta_keys (l : List ToolCallDelta) :
    ∀ m : List (Nat × ToolCallRec),
      (∃ ext, (l.foldl processToolDelta m).map Prod.fst = m.map Prod.fst ++ ext) ∧
      ((m.map Prod.fst).Nodup → ((l.foldl processToolDelta m).map Prod.fst).Nodup) := by
  induction l with
  | nil => intro m; exact ⟨⟨[], by simp⟩, fun h => h⟩
  | cons d l ih =>
    intro m
    obtain ⟨e1, h1⟩ := processToolDelta_keys_mono m d
    obtain ⟨⟨e2, h2⟩, hnd⟩ := ih (processToolDelta m d)
    refine ⟨⟨e1 ++ e2, ?_⟩, fun h => ?_⟩
    · rw [List.foldl_cons, h2, h1, List.append_assoc]
    · exact hnd (processToolDelta_keys_nodup m d h)

theorem captureUsage_fields (st : AggState) (u : Option Usage) :
    (captureUsage st u).full_content = st.full_content ∧
    (captureUsage st u).model_id_used = st.model_id_used ∧
    (captureUsage st u).tool_chunks = st.tool_chunks := by
  cases u <;> simp [captureUsage]

theorem captureModel_fields (st : AggState) (mo : Option String) :
    (captureModel st mo).full_content = st.full_content ∧
    (captureModel st mo).tool_chunks = st.tool_chunks ∧
    (captureModel st mo).model_id_used =
      (if !(optTruthy st.model_id_used) && optTruthy mo then mo
       else st.model_id_used) := by
  unfold captureModel
  split <;> simp_all

theorem appendReasoning_fields (st : AggState) (rc : Option String) :
    (appendReasoning st rc).full_content = st.full_content ∧
    (appendReasoning st rc).model_id_used = st.model_id_used ∧
    (appendReasoning st rc).tool_chunks = st.tool_chunks := by
  cases rc <;> simp [appendReasoning]

theorem processToolCalls_fields (st : AggState) (l : List ToolCallDelta) :
    (processToolCalls st l).full_content = st.full_content ∧
    (processToolCalls st l).model_id_used = st.model_id_used ∧
    (processToolCalls st l).actual_usage = st.actual_usage := by
  simp [processToolCalls]

/-- Characterization of one successful `process_chunk` step: the content
buffer grows by exactly the chunk's content delta; a marker-free buffer
stays marker-free (the in-band-marker guard runs immediately after every
content append); the model id is set by the first chunk that both passes
the choices guard and carries a truthy model; tool-call indices are only
appended, never reordered, and stay duplicate-free. -/
theorem processChunk_ok_spec (st : AggState) (c : Chunk) (st' : AggState)
    (h : processChunk st c = .ok st') :
    st'.full_content = st.full_content ++ chunkContent c ∧
    (hasToolMarker st.full_content = false → hasToolMarker st'.full_content = false) ∧
    st'.model_id_used =
      (match c.choices with
       | [] => st.model_id_used
       | _ :: _ =>
         if !(optTruthy st.model_id_used) && optTruthy c.model then c.model
         else st.model_id_used) ∧
    (∃ ext, toolIndices st' = toolIndices st ++ ext) ∧
    ((toolIndices st).Nodup → (toolIndices st').Nodup) := by
  rcases c with ⟨u, mo, choices⟩
  obtain ⟨hu1, hu2, hu3⟩ := captureUsage_fields st u
  rcases choices with _ | ⟨delta, rest⟩
  · simp only [processChunk, Except.ok.injEq] at h
    subst h
    refine ⟨by simp [chunkContent, hu1], fun hm => by rwa [hu1], by simpa using hu2, ⟨[], by simp [toolIndices, hu3]⟩, fun hn => by simpa [toolIndices, hu3] using hn⟩
  · obtain ⟨hm1, hm2, hm3⟩ := captureModel_fields (captureUsage st u) mo
    obtain ⟨hr1, hr2, hr3⟩ :=
      appendReasoning_fields (captureModel (captureUsage st u) mo) delta.reasoning_content
    have hmodel : (appendReasoning (captureModel (captureUsage st u) mo)
        delta.reasoning_content).model_id_used =
        (if !(optTruthy st.model_id_used) && optTruthy mo then mo
         else st.model_id_used) := by
      rw [hr2, hm3, hu2]
    have hcontent : (appendReasoning (captureModel (captureUsage st u) mo)
        delta.reasoning_content).full_content = st.full_content := by
      rw [hr1, hm1, hu1]
    have htools : (appendReasoning (captureModel (captureUsage st u) mo)
        delta.reasoning_content).tool_chunks = st.tool_chunks := by
      rw [hr3, hm2, hu3]
    rcases hco : delta.content with _ | c0
    · simp only [processChunk, hco, Except.ok.injEq] at h
      subst h
      obtain ⟨hmono, hnd⟩ := foldl_toolDelta_keys delta.tool_calls
        (appendReasoning (captureModel (captureUsage st u) mo)
          delta.reasoning_content).tool_chunks
      refine ⟨?_, ?_, ?_, ?_, ?_⟩
      · simp [processToolCalls, chunkContent, hco, hcontent]
      · intro hmf
        simpa [processToolCalls, hcontent] using hmf
      · simp [processToolCalls, hr2, hm3, hu2]
      · obtain ⟨ext, hext⟩ := hmono
        exact ⟨ext, by simpa [toolIndices, processToolCalls, htools] using hext⟩
      · intro hn
        have := hnd (by simpa [toolIndices, htools] using hn)
        simpa [toolIndices, processToolCalls] using this
    · simp only [processChunk, hco] at h
      split at h
      · exact absurd h (by simp)
      · next hguard =>
        simp only [Except.ok.injEq] at h
        subst h
        obtain ⟨hmono, hnd⟩ := foldl_toolDelta_keys delta.tool_calls
          ({ appendReasoning (captureModel (captureUsage st u) mo)
              delta.reasoning_content with
             full_content := (appendReasoning (captureModel (captureUsage st u) mo)
              delta.reasoning_content).full_content ++ c0 }).tool_chunks
        refine ⟨?_, ?_, ?_, ?_, ?_⟩
        · simp [processToolCalls, chunkContent, hco, hcontent]
        · intro _
          have hg : hasToolMarker ((appendReasoning (captureModel (captureUsage st u) mo)
              delta.reasoning_content).full_content ++ c0) = false :=
            Bool.of_not_eq_true hguard
          simpa [processToolCalls] using hg
        · simp [processToolCalls, hr2, hm3, hu2]
        · obtain ⟨ext, hext⟩ := hmono
          exact ⟨ext, by simpa [toolIndices, processToolCalls, htools] using hext⟩
        · intro hn
          have := hnd (by simpa [toolIndices, htools] using hn)
          simpa [toolIndices, processToolCalls] using this

/-- `process_chunk` raises only the in-band-marker
`FunctionCallErrorException`. -/
theorem processChunk_error_msg (st : AggState) (c : Chunk) (e : String)
    (h : processChunk st c = .error e) : e = markerMsg := by
  rcases c with ⟨u, mo, choices⟩
  rcases choices with _ | ⟨delta, rest⟩
  · simp [processChunk] at h
  · rcases hco : delta.content with _ | c0
    · simp [processChunk, hco] at h
    · simp only [processChunk, hco] at h
      split at h
      · simp only [Except.error.injEq] at h
        exact h.symm
      · simp at h

theorem aggregateChunks_error_msg :
    ∀ (cs : List Chunk) (st : AggState) (e : String),
      aggregateChunks st cs = .error e → e = markerMsg := by
  intro cs
  induction cs with
  | nil => intro st e h; simp [aggregateChunks] at h
  | cons c cs ih =>
    intro st e h
    simp only [aggregateChunks] at h
    cases hpc : processChunk st c with
    | error e0 =>
      rw [hpc] at h
      simp only [Except.error.injEq] at h
      exact h ▸ processChunk_error_msg st c e0 hpc
    | ok st1 =>
      rw [hpc] at h
      exact ih st1 e h

theorem streamContent_foldl (cs : List Chunk) :
    ∀ a : String, cs.foldl (fun b c => b ++ chunkContent c) a = a ++ streamContent cs := by
  induction cs with
  | nil => intro a; simp [streamContent]
  | cons c cs ih =>
    intro a
    have h1 : streamContent (c :: cs) = chunkContent c ++ streamContent cs := by
      show (c :: cs).foldl (fun b c => b ++ chunkContent c) "" = _
      rw [List.foldl_cons, ih ("" ++ chunkContent c), String.empty_append]
    rw [List.foldl_cons, ih (a ++ chunkContent c), h1, String.append_assoc]

/-- Multi-chunk version of `processChunk_ok_spec`: over a whole consumed
stream, content accumulates, marker-freeness is preserved, and tool-call
indices are only appended in first-seen order. -/
theorem aggregateChunks_ok_spec :
    ∀ (cs : List Chunk) (st st' : AggState),
      aggregateChunks st cs = .ok st' →
      st'.full_content = st.full_content ++ streamContent cs ∧
      (hasToolMarker st.full_content = false → hasToolMarker st'.full_content = false) ∧
      (∃ ext, toolIndices st' = toolIndices st ++ ext) ∧
      ((toolIndices st).Nodup → (toolIndices st').Nodup) := by
  intro cs
  induction cs with
  | nil =>
    intro st st' h
    simp only [aggregateChunks, Except.ok.injEq] at h
    subst h
    exact ⟨by simp [streamContent], fun h => h, ⟨[], by simp⟩, fun h => h⟩
  | cons c cs ih =>
    intro st st' h
    simp only [aggregateChunks] at h
    cases hpc : processChunk st c with
    | error e0 => rw [hpc] at h; simp at h
    | ok st1 =>
      rw [hpc] at h
      obtain ⟨hc1, hm1, _, ⟨e1, he1⟩, hn1⟩ := processChunk_ok_spec st c st1 hpc
      obtain ⟨hc2, hm2, ⟨e2, he2⟩, hn2⟩ := ih st1 st' h
      refine ⟨?_, fun hm => hm2 (hm1 hm), ⟨e1 ++ e2, ?_⟩, fun hn => hn2 (hn1 hn)⟩
      · rw [hc2, hc1]
        have : streamContent (c :: cs) = chunkContent c ++ streamContent cs := by
          show (c :: cs).foldl (fun b c => b ++ chunkContent c) "" = _
          rw [List.foldl_cons, streamContent_foldl cs ("" ++ chunkContent c),
            String.empty_append]
        rw [this, String.append_assoc]
      · rw [he2, he1, List.append_assoc]

/-- If the total content text of a stream contains an in-band tool marker,
consuming it aborts with the marker `FunctionCallErrorException`. -/
theorem aggregateChunks_marker_error (cs : List Chunk)
    (h : hasToolMarker (streamContent cs) = true) :
    aggregateChunks initAggState cs = .error markerMsg := by
  cases hagg : aggregateChunks initAggState cs with
  | ok st' =>
    obtain ⟨hc, hm, _, _⟩ := aggregateChunks_ok_spec cs initAggState st' hagg
    have hinit : hasToolMarker initAggState.full_content = false := by decide
    have : hasToolMarker st'.full_content = false := hm hinit
    rw [hc] at this
    have : hasToolMarker (streamContent cs) = false := by
      simpa [initAggState, String.empty_append] using this
    rw [h] at this
    exact absurd this (by simp)
  | error e => rw [aggregateChunks_error_msg cs initAggState e hagg]

/-! ## Claims C2, C7, C8 (aggregator and token estimator) -/

/-- A single-tool-call-delta chunk used by the C2 counterexample. -/
def tcChunk (i : Nat) (nm : String) : Chunk :=
  ⟨none, none, [⟨none, none, [⟨i, some ("id_" ++ nm), some nm, some "\x7b\x7d"⟩]⟩]⟩

/-- Tool-call fragments whose indices are first observed in order 2, 0, 1. -/
def c2Chunks : List Chunk := [tcChunk 2 "f2", tcChunk 0 "f0", tcChunk 1 "f1"]

/-- The function names of the finalized tool-call list for `c2Chunks`
(with an identity-like repair that keeps every arguments string). -/
def c2Names : List String :=
  match aggregateChunks initAggState c2Chunks with
  | .ok st => (getAggregatedResponse (fun _ => none) st).tool_calls.map
      (fun t => OutToolCall.name t)
  | .error _ => []

/-- C2 counterexample: for tool-call fragments whose indices are first
observed in the order 2, 0, 1, `get_aggregated_response` returns the tool
calls in that first-seen order — `["f2", "f0", "f1"]` — not sorted by index
(`["f0", "f1", "f2"]`), refuting the claim that the finalized list is
ordered lowest index first. -/
theorem c2_counterexample :
    c2Names = ["f2", "f0", "f1"] ∧ c2Names ≠ ["f0", "f1", "f2"] := by
  constructor
  · rfl
  · decide

/-- C2 (amended): the finalized tool-call list is in first-seen index
order.  Consuming any further fragments only appends new indices after the
already-tracked ones (never reorders or drops them), the tracked indices
stay duplicate-free, and `get_aggregated_response` emits the records in
exactly the stored (insertion) order. -/
theorem c2_amended_first_seen_order (repair : String → Option String)
    (st : AggState) (cs : List Chunk) (st' : AggState)
    (h : aggregateChunks st cs = .ok st') :
    (∃ ext, toolIndices st' = toolIndices st ++ ext) ∧
    ((toolIndices st).Nodup → (toolIndices st').Nodup) ∧
    (getAggregatedResponse repair st').tool_calls =
      st'.tool_chunks.map (fun p => outOf repair p.2) := by
  obtain ⟨_, _, hmono, hnd⟩ := aggregateChunks_ok_spec cs st st' h
  exact ⟨hmono, hnd, rfl⟩

/-- The aggregator state after consuming `c2Chunks`. -/
def c2State : AggState :=
  (aggregateChunks initAggState c2Chunks).toOption.getD initAggState

/-- Witness for `c2_amended_first_seen_order` at the concrete 2/0/1 input. -/
theorem c2_amended_first_seen_order_witness :
    (∃ ext, toolIndices c2State = toolIndices initAggState ++ ext) ∧
    ((toolIndices initAggState).Nodup → (toolIndices c2State).Nodup) ∧
    (getAggregatedResponse (fun _ => none) c2State).tool_calls =
      c2State.tool_chunks.map (fun p => outOf (fun _ => none) p.2) :=
  c2_amended_first_seen_order (fun _ => none) initAggState c2Chunks c2State rfl

/-- C7's counterexample stream: the first fragment carries model name
"modelA" but no choices (a usage-only-style fragment); the second carries
"modelB" and a (contentless) choices payload. -/
def c7Chunks : List Chunk :=
  [⟨none, some "modelA", []⟩, ⟨none, some "modelB", [⟨none, none, []⟩]⟩]

/-- The resolved model id after consuming `c7Chunks`. -/
def c7Model : Option String :=
  match aggregateChunks initAggState c7Chunks with
  | .ok st => st.model_id_used
  | .error _ => none

/-- C7 counterexample: the first fragment carrying a model name ("modelA")
does NOT set the resolved model id, because it has no choices and
`process_chunk` returns at the no-choices guard before the model capture;
the resolved id is "modelB" from the later fragment, refuting the claim as
stated. -/
theorem c7_counterexample :
    c7Model = some "modelB" ∧ c7Model ≠ some "modelA" := by
  constructor
  · rfl
  · decide

/-- C7 (amended): the resolved model id is set by the first fragment that
both carries a truthy model name AND has a non-empty choices list; once
set, model names of later fragments are ignored, and the finalized
response reports the stored id.  (A fragment with a model name but no
choices payload is skipped entirely by the no-choices guard.) -/
theorem c7_amended_model_capture (repair : String → Option String)
    (st : AggState) (c : Chunk) (st' : AggState)
    (h : processChunk st c = .ok st') :
    st'.model_id_used =
      (match c.choices with
       | [] => st.model_id_used
       | _ :: _ =>
         if !(optTruthy st.model_id_used) && optTruthy c.model then c.model
         else st.model_id_used) ∧
    (getAggregatedResponse repair st').model_id_used = st'.model_id_used := by
  obtain ⟨_, _, hmodel, _, _⟩ := processChunk_ok_spec st c st' h
  exact ⟨hmodel, rfl⟩

/-- The state after a fresh aggregator consumes the choices-bearing
"modelB" fragment. -/
def c7State1 : AggState :=
  (processChunk initAggState
    (Chunk.mk none (some "modelB") [⟨none, none, []⟩])).toOption.getD initAggState

/-- Witness for `c7_amended_model_capture`: the choices-bearing "modelB"
fragment sets the id of a fresh aggregator. -/
theorem c7_amended_model_capture_witness :
    (c7State1.model_id_used =
      (match (Chunk.mk none (some "modelB") [⟨none, none, []⟩]).choices with
       | [] => initAggState.model_id_used
       | _ :: _ =>
         if !(optTruthy initAggState.model_id_used) &&
             optTruthy (Chunk.mk none (some "modelB") [⟨none, none, []⟩]).model then
           (Chunk.mk none (some "modelB") [⟨none, none, []⟩]).model
         else initAggState.model_id_used)) ∧
    (getAggregatedResponse (fun _ => none) c7State1).model_id_used =
      c7State1.model_id_used :=
  c7_amended_model_capture (fun _ => none) initAggState
    (Chunk.mk none (some "modelB") [⟨none, none, []⟩]) c7State1 rfl

/-- A concrete token counter standing in for `litellm.token_counter`. -/
def c8Counter : String → List Message → Except String Nat := fun _ _ => .ok 7

/-- C8 counterexample: with a falsy model name and no tokenizer override,
`estimate_prompt_tokens` returns 0 BEFORE the both-supplied check, so a
call supplying both `text` and `messages` returns `.ok 0` instead of
signalling `ValueError`, refuting the claim as stated. -/
theorem c8_counterexample :
    estimate_prompt_tokens c8Counter "" (some "sample text")
      (some [⟨"user", "hi"⟩]) none none = .ok 0 := rfl

/-- C8 (amended): supplying both `text` and `messages` raises `ValueError`
PROVIDED a usable model name exists (a truthy `litellm_token_counter_model`
override or a non-empty `model`); with no usable model name the function
returns 0 without signalling, as the no-model early return precedes the
both-supplied check. -/
theorem c8_amended_both_supplied (counter : String → List Message → Except String Nat)
    (model : String) (text : Option String) (messages : Option (List Message))
    (sp tcm : Option String)
    (husable : optTruthy tcm = true ∨ model ≠ "")
    (ht : text.isSome = true) (hm : messages.isSome = true) :
    estimate_prompt_tokens counter model text messages sp tcm =
      .error bothSuppliedMsg := by
  have h1 : (!(optTruthy tcm) && model == "") = false := by
    rcases husable with h | h
    · simp [h]
    · simp [h]
  simp [estimate_prompt_tokens, h1, ht, hm]

/-- Witness for `c8_amended_both_supplied` with a usable model name. -/
theorem c8_amended_both_supplied_witness :
    estimate_prompt_tokens c8Counter "gpt-x" (some "t")
      (some [⟨"user", "hi"⟩]) none none = .error bothSuppliedMsg :=
  c8_amended_both_supplied c8Counter "gpt-x" (some "t") (some [⟨"user", "hi"⟩])
    none none (Or.inr (by decide)) rfl rfl

/-! ## Orchestrator lemmas -/

/-- The corrective mutation always succeeds when the original message list
is non-empty (the `messages[-1]` lookup cannot raise). -/
theorem mutateMessages_isSome (attempt : Nat) (orig msgs : List Message)
    (h : orig ≠ []) : ∃ m', mutateMessages attempt orig msgs = some m' := by
  rcases hlast : orig.getLast? with _ | lm
  · rw [List.getLast?_eq_none_iff] at hlast
    exact absurd hlast h
  · by_cases h0 : attempt = 0
    · exact ⟨msgs ++ [⟨"assistant", ""⟩, ⟨"user", emptyRetryPrompt lm.content⟩],
        by simp [mutateMessages, h0, hlast]⟩
    · by_cases h1 : attempt = 1
      · exact ⟨msgs ++ [⟨"user", insistPrompt⟩], by simp [mutateMessages, h0, h1]⟩
      · exact ⟨msgs ++ [⟨"assistant", concludePrompt⟩], by simp [mutateMessages, h0, h1]⟩

/-- With a truthy model, every loop entry with budget left dispatches the
current message list as its first transport attempt. -/
theorem attemptLoop_attempts_head (repair : String → Option String)
    (beh : Nat → AttemptBehavior) (model : Option String) (orig : List Message)
    (r : Nat) (msgs : List Message) (stats : Stats) (attempt : Nat)
    (lastErr : Option LLMErr) (hm : optTruthy model = true) :
    ∃ rest,
      (attemptLoop repair beh model orig (r + 1) msgs stats attempt lastErr).attempts
        = msgs :: rest := by
  simp only [attemptLoop, hm, Bool.not_true, Bool.false_eq_true, if_false]
  repeat' split
  all_goals exact ⟨_, rfl⟩

/-- Every successful result of the loop passed the empty-response check and
the in-band-marker check: its finalized response is non-degenerate and its
content contains no tool marker. -/
theorem attemptLoop_success_spec (repair : String → Option String)
    (beh : Nat → AttemptBehavior) (model : Option String) (orig : List Message) :
    ∀ (remaining : Nat) (msgs : List Message) (stats : Stats) (attempt : Nat)
      (lastErr : Option LLMErr) (resp : AggregatedResponse),
      (attemptLoop repair beh model orig remaining msgs stats attempt lastErr).result
        = .success resp →
      emptyFailureB resp = false ∧ hasToolMarker resp.content = false := by
  intro remaining
  induction remaining with
  | zero =>
    intro msgs stats attempt lastErr resp h
    cases lastErr <;> simp [attemptLoop] at h
  | succ r ih =>
    intro msgs stats attempt lastErr resp h
    by_cases hm : optTruthy model
    case neg => simp [attemptLoop, hm] at h
    case pos =>
      simp only [attemptLoop, hm, Bool.not_true, Bool.false_eq_true, if_false] at h
      cases hbe : beh attempt with
      | raises e =>
        rw [hbe] at h
        by_cases hnet : isNetworkRetryable e.kind
        · simp only [hnet, if_true] at h
          by_cases hr : r = 0
          · simp [hr] at h
          · simp only [hr, if_false] at h
            exact ih _ _ _ _ _ h
        · by_cases hunrec : isUnrecoverable e.kind <;>
            simp [hnet, hunrec] at h
      | yields chunks =>
        rw [hbe] at h
        simp only [] at h
        cases hagg : aggregateChunks initAggState chunks with
        | error e0 =>
          rw [hagg] at h
          simp only [] at h
          by_cases hr : r = 0
          · simp [hr] at h
          · simp only [hr, if_false] at h
            cases hmu : mutateMessages attempt orig msgs with
            | none => rw [hmu] at h; simp at h
            | some msgs' =>
              rw [hmu] at h
              exact ih _ _ _ _ _ h
        | ok st =>
          rw [hagg] at h
          simp only [] at h
          by_cases hempty : emptyFailureB (getAggregatedResponse repair st)
          · simp only [hempty, if_true] at h
            by_cases hr : r = 0
            · simp [hr] at h
            · simp only [hr, if_false] at h
              cases hmu : mutateMessages attempt orig msgs with
              | none => rw [hmu] at h; simp at h
              | some msgs' =>
                rw [hmu] at h
                exact ih _ _ _ _ _ h
          · rw [if_neg hempty] at h
            simp only [CallResult.success.injEq] at h
            subst h
            refine ⟨by simpa using hempty, ?_⟩
            obtain ⟨hc, hmk, _, _⟩ := aggregateChunks_ok_spec chunks initAggState st hagg
            have hinit : hasToolMarker initAggState.full_content = false := by decide
            have := hmk hinit
            simpa [getAggregatedResponse] using this

/-- One-step equation: an unrecoverable transport error returns the error
dict immediately, leaving the statistics untouched. -/
theorem attemptLoop_unrec_step (repair : String → Option String)
    (beh : Nat → AttemptBehavior) (model : Option String) (orig : List Message)
    (r : Nat) (msgs : List Message) (stats : Stats) (attempt : Nat)
    (lastErr : Option LLMErr) (e : LLMErr)
    (hb : beh attempt = .raises e) (hunrec : isUnrecoverable e.kind = true)
    (hm : optTruthy model = true) :
    attemptLoop repair beh model orig (r + 1) msgs stats attempt lastErr =
      ⟨.errorResult (pyName e.kind) (pyName e.kind ++ ": " ++ e.detail), stats, [msgs]⟩ := by
  have hnet : isNetworkRetryable e.kind = false := by
    cases hk : e.kind <;> simp_all [isUnrecoverable, isNetworkRetryable]
  simp [attemptLoop, hm, hb, hnet, hunrec]

/-- One-step equation: a network-class error with budget left increments
the failure counter and re-enters the loop with unchanged messages. -/
theorem attemptLoop_net_step (repair : String → Option String)
    (beh : Nat → AttemptBehavior) (model : Option String) (orig : List Message)
    (r : Nat) (msgs : List Message) (stats : Stats) (attempt : Nat)
    (lastErr : Option LLMErr) (e : LLMErr)
    (hb : beh attempt = .raises e) (hnet : isNetworkRetryable e.kind = true)
    (hm : optTruthy model = true) (hr : r ≠ 0) :
    attemptLoop repair beh model orig (r + 1) msgs stats attempt lastErr =
      ⟨(attemptLoop repair beh model orig r msgs (incFailed stats) (attempt + 1)
          (some e)).result,
       (attemptLoop repair beh model orig r msgs (incFailed stats) (attempt + 1)
          (some e)).stats,
       msgs :: (attemptLoop repair beh model orig r msgs (incFailed stats) (attempt + 1)
          (some e)).attempts⟩ := by
  simp [attemptLoop, hm, hb, hnet, hr]

/-- One-step equation: an empty-response application failure with budget
left increments the failure counter, applies the corrective mutation and
re-enters the loop. -/
theorem attemptLoop_appfail_step (repair : String → Option String)
    (beh : Nat → AttemptBehavior) (model : Option String) (orig : List Message)
    (r : Nat) (msgs : List Message) (stats : Stats) (attempt : Nat)
    (lastErr : Option LLMErr) (cs : List Chunk) (st : AggState) (msgs' : List Message)
    (hb : beh attempt = .yields cs) (hagg : aggregateChunks initAggState cs = .ok st)
    (hempty : emptyFailureB (getAggregatedResponse repair st) = true)
    (hmu : mutateMessages attempt orig msgs = some msgs')
    (hm : optTruthy model = true) (hr : r ≠ 0) :
    attemptLoop repair beh model orig (r + 1) msgs stats attempt lastErr =
      ⟨(attemptLoop repair beh model orig r msgs' (incFailed stats) (attempt + 1)
          (some ⟨.functionCallError, emptyResponseMsg⟩)).result,
       (attemptLoop repair beh model orig r msgs' (incFailed stats) (attempt + 1)
          (some ⟨.functionCallError, emptyResponseMsg⟩)).stats,
       msgs :: (attemptLoop repair beh model orig r msgs' (incFailed stats) (attempt + 1)
          (some ⟨.functionCallError, emptyResponseMsg⟩)).attempts⟩ := by
  simp [attemptLoop, hm, hb, hagg, hempty, hmu, hr]

/-- One-step equation: a stream aggregating to a non-degenerate response
returns it as a success, applying the usage snapshot (if any) to the
statistics. -/
theorem attemptLoop_success_step (repair : String → Option String)
    (beh : Nat → AttemptBehavior) (model : Option String) (orig : List Message)
    (r : Nat) (msgs : List Message) (stats : Stats) (attempt : Nat)
    (lastErr : Option LLMErr) (cs : List Chunk) (st : AggState)
    (hb : beh attempt = .yields cs) (hagg : aggregateChunks initAggState cs = .ok st)
    (hempty : emptyFailureB (getAggregatedResponse repair st) = false)
    (hm : optTruthy model = true) :
    attemptLoop repair beh model orig (r + 1) msgs stats attempt lastErr =
      ⟨.success (getAggregatedResponse repair st), applyUsage stats st.actual_usage,
        [msgs]⟩ := by
  simp [attemptLoop, hm, hb, hagg, hempty]

/-- When every attempt's stream contains an in-band tool marker, the loop
retries through its whole budget and exhausts with the marker failure:
one dispatched attempt per unit of budget and the marker error as the
final result. -/
theorem attemptLoop_marker_exhaust (repair : String → Option String)
    (beh : Nat → AttemptBehavior) (model : Option String) (orig : List Message)
    (hbeh : ∀ n, ∃ cs, beh n = .yields cs ∧ hasToolMarker (streamContent cs) = true)
    (horig : orig ≠ []) (hm : optTruthy model = true) :
    ∀ (r : Nat) (msgs : List Message) (stats : Stats) (attempt : Nat)
      (lastErr : Option LLMErr),
      (attemptLoop repair beh model orig (r + 1) msgs stats attempt lastErr).result
        = .errorResult "FunctionCallErrorException"
            (exhaustedMessage ⟨.functionCallError, markerMsg⟩) ∧
      (attemptLoop repair beh model orig (r + 1) msgs stats attempt lastErr).attempts.length
        = r + 1 := by
  intro r
  induction r with
  | zero =>
    intro msgs stats attempt lastErr
    obtain ⟨cs, hb, hmk⟩ := hbeh attempt
    have hagg := aggregateChunks_marker_error cs hmk
    constructor <;> simp [attemptLoop, hm, hb, hagg, pyName]
  | succ r ih =>
    intro msgs stats attempt lastErr
    obtain ⟨cs, hb, hmk⟩ := hbeh attempt
    have hagg := aggregateChunks_marker_error cs hmk
    obtain ⟨msgs', hmu⟩ := mutateMessages_isSome attempt orig msgs horig
    have hih := ih msgs' (incFailed stats) (attempt + 1)
      (some ⟨ErrKind.functionCallError, markerMsg⟩)
    obtain ⟨R, hR⟩ : ∃ R, R = r + 1 := ⟨r + 1, rfl⟩
    rw [← hR] at hih ⊢
    have hR0 : R ≠ 0 := by omega
    constructor <;> simp [attemptLoop, hm, hb, hagg, hmu, hR0, hih.1, hih.2]

/-! ## Claims C1, C3, C4, C5, C6, C9, C10 (orchestrator) -/

/-- A repair standing in for `json_repair.repair_json` that keeps every
arguments string (used for the concrete runs). -/
def keepArgs : String → Option String := fun _ => none

/-- A zeroed statistics object for concrete runs. -/
def sampleStats : Stats := ⟨0, 0, 0, 0, 0⟩

/-- A minimal conversation for concrete runs. -/
def sampleMsgs : List Message := [⟨"user", "hi"⟩]

/-- C1: any content append whose cumulative buffer contains "<tool_call>"
or "<tool_code>" makes the aggregator abort the attempt with the retryable
`FunctionCallErrorException`; consequently, when every attempt's stream
content carries a marker, the orchestrator retries through its whole
budget (one attempt per unit) and returns an ErrorResult — it never
returns such content as a successful AggregatedResponse. -/
theorem c1_marker_abort_and_retry (repair : String → Option String)
    (beh : Nat → AttemptBehavior) (messages : List Message)
    (model : Option String) (maxRetries : Nat) (sysPrompt : Option String)
    (stats : Stats)
    (hbeh : ∀ n, ∃ cs, beh n = .yields cs ∧ hasToolMarker (streamContent cs) = true)
    (horig : messages ≠ []) (hm : optTruthy model = true) :
    (∀ cs, hasToolMarker (streamContent cs) = true →
      aggregateChunks initAggState cs = .error markerMsg) ∧
    (call_litellm_acompletion repair beh messages model maxRetries sysPrompt
        stats).result
      = .errorResult "FunctionCallErrorException"
          (exhaustedMessage ⟨.functionCallError, markerMsg⟩) ∧
    (call_litellm_acompletion repair beh messages model maxRetries sysPrompt
        stats).attempts.length = maxRetries + 1 :=
  ⟨fun cs hcs => aggregateChunks_marker_error cs hcs,
   (attemptLoop_marker_exhaust repair beh model messages hbeh horig hm maxRetries
      (mkFinalMessages messages sysPrompt) stats 0 none).1,
   (attemptLoop_marker_exhaust repair beh model messages hbeh horig hm maxRetries
      (mkFinalMessages messages sysPrompt) stats 0 none).2⟩

/-- A marker-bearing stream for the C1 witness. -/
def c1Chunks : List Chunk := [⟨none, none, [⟨none, some "<tool_call>", []⟩]⟩]

/-- Witness for `c1_marker_abort_and_retry`: one retry budget, every
attempt streams "<tool_call>" as content. -/
theorem c1_marker_abort_and_retry_witness :
    (∀ cs, hasToolMarker (streamContent cs) = true →
      aggregateChunks initAggState cs = .error markerMsg) ∧
    (call_litellm_acompletion keepArgs (fun _ => .yields c1Chunks) sampleMsgs
        (some "m") 1 none sampleStats).result
      = .errorResult "FunctionCallErrorException"
          (exhaustedMessage ⟨.functionCallError, markerMsg⟩) ∧
    (call_litellm_acompletion keepArgs (fun _ => .yields c1Chunks) sampleMsgs
        (some "m") 1 none sampleStats).attempts.length = 1 + 1 :=
  c1_marker_abort_and_retry keepArgs (fun _ => .yields c1Chunks) sampleMsgs
    (some "m") 1 none sampleStats (fun _ => ⟨c1Chunks, rfl, by decide⟩)
    (by decide) rfl

/-- C3: a finalized response with empty content and no tool calls is
treated as a retryable application-level failure: with budget left, after
the attempt-0 failure the orchestrator starts a retry whose message list
is the previous one extended by exactly two turns — an empty assistant
turn and a user turn reiterating the last original message — and if that
retry's stream aggregates to a non-degenerate response the call succeeds
after exactly 2 attempts. -/
theorem c3_empty_response_retry (repair : String → Option String)
    (beh : Nat → AttemptBehavior) (messages : List Message)
    (model : Option String) (maxRetries : Nat) (sysPrompt : Option String)
    (stats : Stats) (cs : List Chunk) (st : AggState) (lm : Message)
    (hb0 : beh 0 = .yields cs)
    (hagg : aggregateChunks initAggState cs = .ok st)
    (hempty : emptyFailureB (getAggregatedResponse repair st) = true)
    (hlast : messages.getLast? = some lm)
    (hm : optTruthy model = true) (hmr : 1 ≤ maxRetries) :
    (∃ rest,
      (call_litellm_acompletion repair beh messages model maxRetries sysPrompt
          stats).attempts
        = mkFinalMessages messages sysPrompt
          :: (mkFinalMessages messages sysPrompt
              ++ [⟨"assistant", ""⟩, ⟨"user", emptyRetryPrompt lm.content⟩]) :: rest) ∧
    (∀ cs1 st1, beh 1 = .yields cs1 →
      aggregateChunks initAggState cs1 = .ok st1 →
      emptyFailureB (getAggregatedResponse repair st1) = false →
      (call_litellm_acompletion repair beh messages model maxRetries sysPrompt
          stats).result = .success (getAggregatedResponse repair st1) ∧
      (call_litellm_acompletion repair beh messages model maxRetries sysPrompt
          stats).attempts.length = 2) := by
  obtain ⟨m, rfl⟩ : ∃ m, maxRetries = m + 1 := ⟨maxRetries - 1, by omega⟩
  have hmu : mutateMessages 0 messages (mkFinalMessages messages sysPrompt)
      = some (mkFinalMessages messages sysPrompt
          ++ [⟨"assistant", ""⟩, ⟨"user", emptyRetryPrompt lm.content⟩]) := by
    simp [mutateMessages, hlast]
  have hstep := attemptLoop_appfail_step repair beh model messages (m + 1)
    (mkFinalMessages messages sysPrompt) stats 0 none cs st _ hb0 hagg hempty hmu
    hm (by omega)
  constructor
  · obtain ⟨rest, hrest⟩ := attemptLoop_attempts_head repair beh model messages m
      (mkFinalMessages messages sysPrompt
        ++ [⟨"assistant", ""⟩, ⟨"user", emptyRetryPrompt lm.content⟩])
      (incFailed stats) 1 (some ⟨.functionCallError, emptyResponseMsg⟩) hm
    refine ⟨rest, ?_⟩
    show (attemptLoop repair beh model messages (m + 1 + 1)
      (mkFinalMessages messages sysPrompt) stats 0 none).attempts = _
    rw [hstep]
    simp [hrest]
  · intro cs1 st1 hb1 hagg1 hgood
    have hstep2 := attemptLoop_success_step repair beh model messages m
      (mkFinalMessages messages sysPrompt
        ++ [⟨"assistant", ""⟩, ⟨"user", emptyRetryPrompt lm.content⟩])
      (incFailed stats) 1 (some ⟨.functionCallError, emptyResponseMsg⟩) cs1 st1
      hb1 hagg1 hgood hm
    constructor
    · show (attemptLoop repair beh model messages (m + 1 + 1)
        (mkFinalMessages messages sysPrompt) stats 0 none).result = _
      rw [hstep]
      simp [hstep2]
    · show (attemptLoop repair beh model messages (m + 1 + 1)
        (mkFinalMessages messages sysPrompt) stats 0 none).attempts.length = 2
      rw [hstep]
      simp [hstep2]

/-- An empty transport stream (aggregates to the fresh state) and a
"hello" follow-up stream for the C3 witness. -/
def helloChunks : List Chunk := [⟨none, none, [⟨none, some "hello", []⟩]⟩]

/-- Behaviour for the C3 witness: attempt 0 streams nothing, later
attempts stream "hello". -/
def c3Beh : Nat → AttemptBehavior :=
  fun n => if n = 0 then .yields [] else .yields helloChunks

/-- Witness for `c3_empty_response_retry` at a concrete empty-then-hello
run with `max_retries = 2`. -/
theorem c3_empty_response_retry_witness :
    (∃ rest,
      (call_litellm_acompletion keepArgs c3Beh sampleMsgs (some "m") 2 none
          sampleStats).attempts
        = sampleMsgs
          :: (sampleMsgs
              ++ [⟨"assistant", ""⟩, ⟨"user", emptyRetryPrompt "hi"⟩]) :: rest) ∧
    (∀ cs1 st1, c3Beh 1 = .yields cs1 →
      aggregateChunks initAggState cs1 = .ok st1 →
      emptyFailureB (getAggregatedResponse keepArgs st1) = false →
      (call_litellm_acompletion keepArgs c3Beh sampleMsgs (some "m") 2 none
          sampleStats).result = .success (getAggregatedResponse keepArgs st1) ∧
      (call_litellm_acompletion keepArgs c3Beh sampleMsgs (some "m") 2 none
          sampleStats).attempts.length = 2) :=
  c3_empty_response_retry keepArgs c3Beh sampleMsgs (some "m") 2 none
    sampleStats [] initAggState ⟨"user", "hi"⟩ rfl rfl (by decide) rfl rfl
    (by omega)

/-- C4: an unrecoverable failure (authentication, malformed request,
context window exceeded) on attempt 0 makes the call return a structured
ErrorResult immediately, after exactly one dispatched attempt, regardless
of the remaining retry budget, with the statistics untouched and nothing
raised. -/
theorem c4_unrecoverable_short_circuit (repair : String → Option String)
    (beh : Nat → AttemptBehavior) (messages : List Message)
    (model : Option String) (maxRetries : Nat) (sysPrompt : Option String)
    (stats : Stats) (e : LLMErr)
    (hb0 : beh 0 = .raises e) (hunrec : isUnrecoverable e.kind = true)
    (hm : optTruthy model = true) :
    call_litellm_acompletion repair beh messages model maxRetries sysPrompt stats =
      ⟨.errorResult (pyName e.kind) (pyName e.kind ++ ": " ++ e.detail), stats,
        [mkFinalMessages messages sysPrompt]⟩ :=
  attemptLoop_unrec_step repair beh model messages maxRetries
    (mkFinalMessages messages sysPrompt) stats 0 none e hb0 hunrec hm

/-- Witness for `c4_unrecoverable_short_circuit`: an authentication error
on attempt 0 of a call with `max_retries = 5`. -/
theorem c4_unrecoverable_short_circuit_witness :
    call_litellm_acompletion keepArgs
      (fun _ => .raises ⟨.authentication, "bad key"⟩) sampleMsgs (some "m") 5
      none sampleStats =
      ⟨.errorResult "AuthenticationError" "AuthenticationError: bad key",
        sampleStats, [sampleMsgs]⟩ :=
  c4_unrecoverable_short_circuit keepArgs
    (fun _ => .raises ⟨.authentication, "bad key"⟩) sampleMsgs (some "m") 5
    none sampleStats ⟨.authentication, "bad key"⟩ rfl rfl rfl

/-- C5: with `max_retries = 2` and a transient network-class error on
every attempt, the call performs exactly 3 attempts (0, 1, 2), increments
the failure counter once per attempt, and returns an ErrorResult whose
type and message reference the last error encountered. -/
theorem c5_network_exhaustion (repair : String → Option String)
    (beh : Nat → AttemptBehavior) (messages : List Message)
    (model : Option String) (sysPrompt : Option String) (stats : Stats)
    (e0 e1 e2 : LLMErr)
    (hb0 : beh 0 = .raises e0) (h0 : isNetworkRetryable e0.kind = true)
    (hb1 : beh 1 = .raises e1) (h1 : isNetworkRetryable e1.kind = true)
    (hb2 : beh 2 = .raises e2) (h2 : isNetworkRetryable e2.kind = true)
    (hm : optTruthy model = true) :
    call_litellm_acompletion repair beh messages model 2 sysPrompt stats =
      ⟨.errorResult (pyName e2.kind) (exhaustedMessage e2),
        incFailed (incFailed (incFailed stats)),
        [mkFinalMessages messages sysPrompt, mkFinalMessages messages sysPrompt,
          mkFinalMessages messages sysPrompt]⟩ := by
  show attemptLoop repair beh model messages 3 (mkFinalMessages messages sysPrompt)
    stats 0 none = _
  rw [attemptLoop_net_step repair beh model messages 2
      (mkFinalMessages messages sysPrompt) stats 0 none e0 hb0 h0 hm (by decide),
    attemptLoop_net_step repair beh model messages 1
      (mkFinalMessages messages sysPrompt) (incFailed stats) 1 (some e0) e1 hb1 h1
      hm (by decide)]
  simp [attemptLoop, hm, hb2, h2]

/-- Witness for `c5_network_exhaustion`: every attempt times out. -/
theorem c5_network_exhaustion_witness :
    call_litellm_acompletion keepArgs (fun _ => .raises ⟨.timeout, "boom"⟩)
      sampleMsgs (some "m") 2 none sampleStats =
      ⟨.errorResult "Timeout" (exhaustedMessage ⟨.timeout, "boom"⟩),
        ⟨0, 0, 0, 3, 0⟩, [sampleMsgs, sampleMsgs, sampleMsgs]⟩ :=
  c5_network_exhaustion keepArgs (fun _ => .raises ⟨.timeout, "boom"⟩)
    sampleMsgs (some "m") none sampleStats ⟨.timeout, "boom"⟩ ⟨.timeout, "boom"⟩
    ⟨.timeout, "boom"⟩ rfl rfl rfl rfl rfl rfl rfl

/-- C6 (Scenario A): one fragment with content "hello", no tool calls and
no usage snapshot, under `max_retries = 0`: the call returns a successful
AggregatedResponse with content "hello" and an empty tool-call list, and
the supplied statistics object is returned entirely unchanged. -/
theorem c6_scenario_a (repair : String → Option String) (stats : Stats) :
    call_litellm_acompletion repair
      (fun _ => .yields [⟨none, none, [⟨none, some "hello", []⟩]⟩])
      [⟨"user", "hi"⟩] (some "m") 0 none stats =
      ⟨.success ⟨"", "hello", [], none, none⟩, stats, [[⟨"user", "hi"⟩]]⟩ := rfl

/-- C9: a finalized response whose content is non-empty but entirely
whitespace, with no tool calls, is classified exactly like a completely
empty response: the attempt fails retryably (a second attempt is
dispatched when budget remains) and no successful AggregatedResponse ever
has whitespace-only content together with an empty tool-call list. -/
theorem c9_whitespace_only_is_empty_failure (repair : String → Option String)
    (beh : Nat → AttemptBehavior) (messages : List Message)
    (model : Option String) (maxRetries : Nat) (sysPrompt : Option String)
    (stats : Stats) (cs : List Chunk) (st : AggState)
    (hb0 : beh 0 = .yields cs)
    (hagg : aggregateChunks initAggState cs = .ok st)
    (hws : strippedEmpty st.full_content = true)
    (_hnz : st.full_content ≠ "")
    (htc : st.tool_chunks = [])
    (horig : messages ≠ [])
    (hm : optTruthy model = true) (hmr : 1 ≤ maxRetries) :
    2 ≤ (call_litellm_acompletion repair beh messages model maxRetries sysPrompt
        stats).attempts.length ∧
    (∀ resp,
      (call_litellm_acompletion repair beh messages model maxRetries sysPrompt
          stats).result = .success resp →
      ¬(strippedEmpty resp.content = true ∧ resp.tool_calls = [])) := by
  have hempty : emptyFailureB (getAggregatedResponse repair st) = true := by
    simp [emptyFailureB, getAggregatedResponse, hws, htc]
  obtain ⟨m, rfl⟩ : ∃ m, maxRetries = m + 1 := ⟨maxRetries - 1, by omega⟩
  obtain ⟨msgs', hmu⟩ := mutateMessages_isSome 0 messages
    (mkFinalMessages messages sysPrompt) horig
  have hstep := attemptLoop_appfail_step repair beh model messages (m + 1)
    (mkFinalMessages messages sysPrompt) stats 0 none cs st msgs' hb0 hagg hempty
    hmu hm (by omega)
  constructor
  · obtain ⟨rest, hrest⟩ := attemptLoop_attempts_head repair beh model messages m
      msgs' (incFailed stats) 1 (some ⟨.functionCallError, emptyResponseMsg⟩) hm
    show 2 ≤ (attemptLoop repair beh model messages (m + 1 + 1)
      (mkFinalMessages messages sysPrompt) stats 0 none).attempts.length
    rw [hstep]
    simp [hrest]
  · intro resp hres
    have hspec := attemptLoop_success_spec repair beh model messages (m + 1 + 1)
      (mkFinalMessages messages sysPrompt) stats 0 none resp hres
    rintro ⟨hws', htc'⟩
    have hE : emptyFailureB resp = true := by simp [emptyFailureB, hws', htc']
    have hF := hspec.1
    rw [hF] at hE
    exact absurd hE (by simp)

/-- A whitespace-only stream for the C9 witness. -/
def c9Chunks : List Chunk := [⟨none, none, [⟨none, some "   ", []⟩]⟩]

/-- The aggregator state after consuming `c9Chunks`. -/
def c9State : AggState :=
  (aggregateChunks initAggState c9Chunks).toOption.getD initAggState

/-- Witness for `c9_whitespace_only_is_empty_failure`: attempt 0 streams
three spaces, one retry unit of budget. -/
theorem c9_whitespace_only_is_empty_failure_witness :
    2 ≤ (call_litellm_acompletion keepArgs
        (fun n => if n = 0 then .yields c9Chunks else .yields helloChunks)
        sampleMsgs (some "m") 1 none sampleStats).attempts.length ∧
    (∀ resp,
      (call_litellm_acompletion keepArgs
          (fun n => if n = 0 then .yields c9Chunks else .yields helloChunks)
          sampleMsgs (some "m") 1 none sampleStats).result = .success resp →
      ¬(strippedEmpty resp.content = true ∧ resp.tool_calls = [])) :=
  c9_whitespace_only_is_empty_failure keepArgs
    (fun n => if n = 0 then .yields c9Chunks else .yields helloChunks)
    sampleMsgs (some "m") 1 none sampleStats c9Chunks c9State rfl rfl
    (by decide) (by decide) rfl (by decide) rfl (by omega)

/-- C10: an unrecoverable termination performs no statistics mutation:
if attempt 0 raises an unrecoverable error the supplied statistics object
is returned entirely unchanged (in particular `total_failed_calls` is not
incremented), whereas a retryable failure increments `total_failed_calls`
once per failed attempt — a network failure followed by an unrecoverable
one leaves the counter incremented exactly once. -/
theorem c10_unrecoverable_stats_frame (repair : String → Option String)
    (messages : List Message) (model : Option String) (maxRetries : Nat)
    (sysPrompt : Option String) (stats : Stats)
    (hm : optTruthy model = true) :
    (∀ (beh : Nat → AttemptBehavior) (e : LLMErr),
      beh 0 = .raises e → isUnrecoverable e.kind = true →
      (call_litellm_acompletion repair beh messages model maxRetries sysPrompt
          stats).stats = stats) ∧
    (∀ (beh : Nat → AttemptBehavior) (e0 e1 : LLMErr),
      beh 0 = .raises e0 → isNetworkRetryable e0.kind = true →
      beh 1 = .raises e1 → isUnrecoverable e1.kind = true →
      1 ≤ maxRetries →
      (call_litellm_acompletion repair beh messages model maxRetries sysPrompt
          stats).stats = incFailed stats ∧
      (call_litellm_acompletion repair beh messages model maxRetries sysPrompt
          stats).result
        = .errorResult (pyName e1.kind) (pyName e1.kind ++ ": " ++ e1.detail)) := by
  constructor
  · intro beh e hb0 hunrec
    have h := attemptLoop_unrec_step repair beh model messages maxRetries
      (mkFinalMessages messages sysPrompt) stats 0 none e hb0 hunrec hm
    show (attemptLoop repair beh model messages (maxRetries + 1)
      (mkFinalMessages messages sysPrompt) stats 0 none).stats = stats
    rw [h]
  · intro beh e0 e1 hb0 hnet hb1 hunrec hmr
    obtain ⟨m, rfl⟩ : ∃ m, maxRetries = m + 1 := ⟨maxRetries - 1, by omega⟩
    have h1 := attemptLoop_net_step repair beh model messages (m + 1)
      (mkFinalMessages messages sysPrompt) stats 0 none e0 hb0 hnet hm (by omega)
    have h2 := attemptLoop_unrec_step repair beh model messages m
      (mkFinalMessages messages sysPrompt) (incFailed stats) 1 (some e0) e1 hb1
      hunrec hm
    constructor
    · show (attemptLoop repair beh model messages (m + 1 + 1)
        (mkFinalMessages messages sysPrompt) stats 0 none).stats = incFailed stats
      rw [h1, h2]
    · show (attemptLoop repair beh model messages (m + 1 + 1)
        (mkFinalMessages messages sysPrompt) stats 0 none).result = _
      rw [h1, h2]

/-- Behaviour for the C10 witness: a timeout, then an authentication
failure. -/
def c10Beh : Nat → AttemptBehavior :=
  fun n => if n = 0 then .raises ⟨.timeout, "t"⟩
           else .raises ⟨.authentication, "denied"⟩

/-- Witness for `c10_unrecoverable_stats_frame`: unrecoverable-first leaves
the statistics unchanged; timeout-then-unrecoverable increments the failed
counter exactly once. -/
theorem c10_unrecoverable_stats_frame_witness :
    (call_litellm_acompletion keepArgs
        (fun _ => .raises ⟨.authentication, "denied"⟩) sampleMsgs (some "m") 1
        none sampleStats).stats = sampleStats ∧
    (call_litellm_acompletion keepArgs c10Beh sampleMsgs (some "m") 1 none
        sampleStats).stats = incFailed sampleStats :=
  ⟨(c10_unrecoverable_stats_frame keepArgs sampleMsgs (some "m") 1 none
      sampleStats rfl).1 (fun _ => .raises ⟨.authentication, "denied"⟩)
      ⟨.authentication, "denied"⟩ rfl rfl,
   ((c10_unrecoverable_stats_frame keepArgs sampleMsgs (some "m") 1 none
      sampleStats rfl).2 c10Beh ⟨.timeout, "t"⟩ ⟨.authentication, "denied"⟩
      rfl rfl rfl rfl (by omega)).1⟩

end CG
